import Mathlib

/-
Shallow embedding of the harmony custom memory allocation subsystem
(harmony_test.c and harmony_core.h): the arena (bump) allocator and the
fixed-slot pool allocator, together with the byte-level memory helpers
they use.  All usize arithmetic is modelled on Nat with an explicit
modulus 2 ^ 64 (wadd / wsub below), matching the wraparound semantics of
C unsigned arithmetic.  Pointers are modelled as plain addresses (Nat);
the backing store is a byte map Nat -> Nat, written through store8 and
read back through load64 in little-endian order exactly as the 64-bit
link loads and stores in the C code do on the target platform.
-/

/-- The modulus of the 64-bit usize type used throughout the C code. -/
def usizeSize : Nat := 2 ^ 64

/-- usize addition, wrapping at 2 ^ 64. -/
def wadd (a b : Nat) : Nat := (a + b) % usizeSize

/-- usize subtraction, wrapping at 2 ^ 64 (two-complement difference). -/
def wsub (a b : Nat) : Nat := (a % usizeSize + usizeSize - b % usizeSize) % usizeSize

/-- harmony_mem_align from harmony_core.h:
(mem + alignment - 1) and ~(alignment - 1).  For a power-of-two alignment
(the code only ever passes HARMONY_MAX_ALIGNMENT = 16) masking away the low
bits of the 64-bit value equals dividing and re-multiplying by the
alignment; the mod usizeSize models the 64-bit addition. -/
def harmony_mem_align (mem alignment : Nat) : Nat :=
  (mem + alignment - 1) % usizeSize / alignment * alignment

/-- The byte memory: a map from addresses to byte values. -/
abbrev Mem := Nat → Nat

/-- Writing one byte (values are truncated to a byte, as a u8 store is). -/
def store8 (m : Mem) (a v : Nat) : Mem :=
  fun x => if x = a then v % 256 else m x

/-- A 64-bit little-endian store, as *(u64 *)p = v compiles to. -/
def store64 (m : Mem) (a v : Nat) : Mem :=
  (List.range 8).foldl (fun mm k => store8 mm (wadd a k) (v / 256 ^ k)) m

/-- A 64-bit little-endian load, as *(u64 *)p compiles to. -/
def load64 (m : Mem) (a : Nat) : Nat :=
  (List.range 8).foldl (fun acc k => acc + m (wadd a k) % 256 * 256 ^ k) 0

/-- harmony_mem_copy from harmony_test.c: if (usize)dst - (usize)src < size
(usize wraparound is how the overlap direction test works) copy the bytes
backwards from index size - 1 down to 0, otherwise forwards from 0. -/
def harmony_mem_copy (m : Mem) (dst src size : Nat) : Mem :=
  if wsub dst src < size then
    (List.range size).reverse.foldl (fun mm i => store8 mm (wadd dst i) (mm (wadd src i))) m
  else
    (List.range size).foldl (fun mm i => store8 mm (wadd dst i) (mm (wadd src i))) m

/-- HarmonyArena from harmony_core.h: buffer base address, capacity in
bytes, and the head cursor. -/
structure HarmonyArena where
  data : Nat
  capacity : Nat
  head : Nat
deriving DecidableEq

/-- harmony_arena_create from harmony_test.c.  The C compound literal
initializes only .data (with the pointer returned by the backing
harmony_alloc, modelled by the base parameter); the capacity and head
fields are zero-initialized.  The requested capacity is passed to the
backing allocator but never stored. -/
def harmony_arena_create (base capacity : Nat) : HarmonyArena :=
  { data := base, capacity := 0, head := 0 }

/-- harmony_arena_reset from harmony_test.c. -/
def harmony_arena_reset (a : HarmonyArena) : HarmonyArena :=
  { a with head := 0 }

/-- harmony_arena_alloc from harmony_test.c.  The local new_head of the C
code is inlined. -/
def harmony_arena_alloc (a : HarmonyArena) (size : Nat) : Option Nat × HarmonyArena :=
  if size = 0 then (none, a)
  else if wadd a.head (harmony_mem_align size 16) > a.capacity then (none, a)
  else (some (wadd a.data a.head), { a with head := wadd a.head (harmony_mem_align size 16) })

/-- harmony_arena_free from harmony_test.c.  Note the guard adds the
aligned size to the absolute address of the allocation and compares the
result against the relative head offset, exactly as the C does. -/
def harmony_arena_free (a : HarmonyArena) (allocation size : Nat) : HarmonyArena :=
  if wadd allocation (harmony_mem_align size 16) = a.head then
    { a with head := wsub allocation a.data }
  else a

/-- harmony_arena_realloc from harmony_test.c.  When new_size is 0 the
head is rewound to the offset of the allocation unconditionally.  In the
fallback branch the C passes the result of harmony_arena_alloc (possibly
NULL, i.e. address 0) to harmony_mem_copy with a byte count of old_size. -/
def harmony_arena_realloc (a : HarmonyArena) (m : Mem) (allocation old_size new_size : Nat) :
    Option Nat × HarmonyArena × Mem :=
  if new_size = 0 then (none, { a with head := wsub allocation a.data }, m)
  else if wadd allocation (harmony_mem_align old_size 16) = a.head then
    if wadd (wsub allocation a.data) (harmony_mem_align new_size 16) > a.capacity then
      (none, a, m)
    else
      (some allocation,
       { a with head := wadd (wsub allocation a.data) (harmony_mem_align new_size 16) }, m)
  else
    match harmony_arena_alloc a new_size with
    | (some new_allocation, a2) =>
        (some new_allocation, a2, harmony_mem_copy m new_allocation allocation old_size)
    | (none, a2) => (none, a2, harmony_mem_copy m 0 allocation old_size)

/-- HarmonyPool from harmony_core.h: buffer base address, capacity,
slot width, and the offset of the free-chain head. -/
structure HarmonyPool where
  data : Nat
  capacity : Nat
  item_width : Nat
  next_offset : Nat
deriving DecidableEq

/-- harmony_pool_reset from harmony_test.c.  The C loop runs i over
0, item_width, 2 * item_width, ... below capacity (hence
ceil (capacity / item_width) iterations for a positive item_width; the C
loop does not terminate for item_width = 0, which harmony_pool_create
rules out by forcing item_width >= 8) and stores the 64-bit value i + 1
at byte offset i * capacity, exactly as written in the source. -/
def harmony_pool_reset (p : HarmonyPool) (m : Mem) : HarmonyPool × Mem :=
  ({ p with next_offset := 0 },
   (List.range ((p.capacity + p.item_width - 1) / p.item_width)).foldl
     (fun mm j =>
       store64 mm (wadd p.data (j * p.item_width * p.capacity)) (j * p.item_width + 1)) m)

/-- harmony_pool_alloc from harmony_test.c.  The returned address is
data + next_offset and the new next_offset is the 64-bit link read at
that same byte address. -/
def harmony_pool_alloc (p : HarmonyPool) (m : Mem) : Option Nat × HarmonyPool :=
  if p.next_offset > wsub p.capacity p.item_width then (none, p)
  else
    (some (wadd p.data p.next_offset),
     { p with next_offset := load64 m (wadd p.data p.next_offset) })

/-- harmony_pool_free from harmony_test.c: the old next_offset is stored
into the first 8 bytes of the freed slot, then next_offset becomes the
byte offset of the slot. -/
def harmony_pool_free (p : HarmonyPool) (m : Mem) (allocation : Nat) : HarmonyPool × Mem :=
  ({ p with next_offset := wsub allocation p.data }, store64 m allocation p.next_offset)

/-- The walk loop of harmony_pool_is_valid, with the iteration count as
fuel.  Each step checks the current offset against capacity - item_width
(returning false inside the loop on an out-of-range offset) and then
follows the link read at (u64 *)data + next_offset, which is BYTE address
data + 8 * next_offset, exactly as the C pointer arithmetic does.  After
the final iteration the loop falls through to the closing check, which
returns true only for an out-of-range offset. -/
def poolCheckLoop (m : Mem) (base cap iw : Nat) : Nat → Nat → Bool × Nat
  | 0, next => (if next > wsub cap iw then true else false, next)
  | k + 1, next =>
      if next > wsub cap iw then (false, next)
      else poolCheckLoop m base cap iw k (load64 m (wadd base (8 * next)))

/-- harmony_pool_is_valid from harmony_test.c.  slot_count is computed by
the C as (usize)floor((f64)capacity / (f64)item_width), which is the Nat
quotient whenever the double computation is exact (it is for every
capacity and item_width representable in 53 bits, in particular in all
the scenarios of the spec); the walk mutates next_offset, returned in the
second component. -/
def harmony_pool_is_valid (p : HarmonyPool) (m : Mem) : Bool × HarmonyPool :=
  ((poolCheckLoop m p.data p.capacity p.item_width (p.capacity / p.item_width) p.next_offset).1,
   { p with next_offset :=
      (poolCheckLoop m p.data p.capacity p.item_width (p.capacity / p.item_width)
        p.next_offset).2 })

/-- The offset reached after k steps of the free-chain walk exactly as
harmony_pool_is_valid performs it (links read at byte address
data + 8 * offset). -/
def poolWalk (m : Mem) (base : Nat) : Nat → Nat → Nat
  | 0, next => next
  | k + 1, next => poolWalk m base k (load64 m (wadd base (8 * next)))

/-- The all-zero byte memory used by the concrete evaluations. -/
def zeroMem : Mem := fun _ => 0

/-- Byte memory in which every byte holds the low 8 bits of its address. -/
def memIdent : Mem := fun a => a % 256

/-- The four-slot test pool of the spec scenarios: base address 0,
capacity 64, item width 16, next_offset 0. -/
def pool64 : HarmonyPool := ⟨0, 64, 16, 0⟩

/-- The state after resetting pool64 in zeroed memory. -/
def poolAfterReset : HarmonyPool × Mem := harmony_pool_reset pool64 zeroMem

/-- First allocation from the freshly reset pool64. -/
def c2alloc1 : Option Nat × HarmonyPool := harmony_pool_alloc poolAfterReset.1 poolAfterReset.2

/-- Second allocation from the freshly reset pool64. -/
def c2alloc2 : Option Nat × HarmonyPool := harmony_pool_alloc c2alloc1.2 poolAfterReset.2

/-- Surrounding memory for the double-free scenario: the bytes that the
out-of-buffer link reads of harmony_pool_is_valid happen to hit. -/
def memC4 : Mem := fun a => if a = 0 then 48 else if a = 128 then 32 else if a = 384 then 100 else 0

/-- First free of the slot at address 16 of pool64. -/
def c4free1 : HarmonyPool × Mem := harmony_pool_free pool64 memC4 16

/-- Second (double) free of the same slot at address 16. -/
def c4free2 : HarmonyPool × Mem := harmony_pool_free c4free1.1 c4free1.2 16

/-- Realloc of a non-most-recent allocation (offset 0, old size 16) to
new size 8 in an arena with head 32: exercises the copy fallback path. -/
def c8result : Option Nat × HarmonyArena × Mem := harmony_arena_realloc ⟨0, 64, 32⟩ memIdent 0 16 8

/-- wadd is plain addition when the sum fits in 64 bits. -/
theorem wadd_small (a b : Nat) (h : a + b < usizeSize) : wadd a b = a + b :=
  Nat.mod_eq_of_lt h

/-- wsub is plain truncated subtraction when no underflow occurs. -/
theorem wsub_small (a b : Nat) (hb : b ≤ a) (ha : a < usizeSize) : wsub a b = a - b := by
  unfold wsub
  rw [Nat.mod_eq_of_lt ha, Nat.mod_eq_of_lt (Nat.lt_of_le_of_lt hb ha)]
  have h1 : a + usizeSize - b = usizeSize + (a - b) := by omega
  rw [h1, Nat.add_mod_left]
  exact Nat.mod_eq_of_lt (by omega)

/-- Subtracting the base from an in-range address recovers the offset. -/
theorem wsub_add_left (a b : Nat) (h : a + b < usizeSize) : wsub (a + b) a = b := by
  rw [wsub_small (a + b) a (Nat.le_add_right a b) h]
  omega

/-- harmony_mem_align at alignment 16 is the ordinary round-up when the
argument is far from the 64-bit boundary. -/
theorem malign16 (x : Nat) (h : x + 15 < usizeSize) :
    harmony_mem_align x 16 = (x + 15) / 16 * 16 := by
  unfold harmony_mem_align
  have h1 : x + 16 - 1 = x + 15 := by omega
  rw [h1, Nat.mod_eq_of_lt h]

/-- harmony_arena_alloc never pushes head past capacity. -/
theorem arena_alloc_head_le (a : HarmonyArena) (size : Nat) (h : a.head ≤ a.capacity) :
    (harmony_arena_alloc a size).2.head ≤ a.capacity := by
  unfold harmony_arena_alloc
  by_cases h0 : size = 0
  · simp [h0, h]
  · by_cases h1 : wadd a.head (harmony_mem_align size 16) > a.capacity
    · simp [h0, h1, h]
    · simp [h0, h1]
      omega

/-- If some iterate of the walk before the fuel runs out is out of range,
the loop of harmony_pool_is_valid returns false. -/
theorem poolCheckLoop_false (m : Mem) (base cap iw : Nat) :
    ∀ n next, (∃ k, k < n ∧ wsub cap iw < poolWalk m base k next) →
      (poolCheckLoop m base cap iw n next).1 = false := by
  intro n
  induction n with
  | zero =>
      intro next h
      obtain ⟨k, hk, _⟩ := h
      omega
  | succ n ih =>
      intro next h
      obtain ⟨k, hk, hout⟩ := h
      by_cases hn : next > wsub cap iw
      · simp [poolCheckLoop, hn]
      · have hk0 : k ≠ 0 := by
          intro h0
          subst h0
          simp [poolWalk] at hout
          omega
        obtain ⟨k2, rfl⟩ : ∃ k2, k = k2 + 1 := ⟨k - 1, by omega⟩
        have hstep : poolWalk m base (k2 + 1) next
            = poolWalk m base k2 (load64 m (wadd base (8 * next))) := rfl
        simp only [poolCheckLoop, hn, if_false]
        exact ih (load64 m (wadd base (8 * next))) ⟨k2, by omega, by rw [← hstep]; exact hout⟩

/-- C1: harmony_pool_reset evaluated at the failing input, a pool with
base address 0, capacity 64 and item_width 16 (4 slots) over zeroed
memory.  The claim requires the first 8 bytes of slot 0 to hold 16 (the
byte offset of slot 1); the code instead stores the value 1 there, and
writes the remaining links at byte offsets 1024, 2048 and 3072
(i * capacity), far outside the 64-byte buffer (the byte at 1024 becomes
17).  Only the next_offset = 0 part of the claim holds. -/
theorem pool_reset_link_bug_trace :
    (harmony_pool_reset pool64 zeroMem).1.next_offset = 0 ∧
    load64 (harmony_pool_reset pool64 zeroMem).2 0 = 1 ∧
    (harmony_pool_reset pool64 zeroMem).2 1024 = 17 := by decide

/-- C2: after harmony_pool_reset of the 4-slot pool, the first
harmony_pool_alloc returns the slot at offset 0, but the second returns
the address at offset 1 (the bogus link value written by reset), which
overlaps the first 16-byte slot and is not a slot boundary; the claim
requires 4 pairwise disjoint slots. -/
theorem pool_alloc_overlap_trace :
    c2alloc1.1 = some 0 ∧ c2alloc2.1 = some 1 := by decide

/-- C3 counterexample: a pool (base 0, capacity 64, item_width 16) whose
next_offset is 64, i.e. the free-chain walk reaches an out-of-range
offset (64 > capacity - item_width = 48) in 0 steps, strictly fewer than
slot_count = 4.  The claim says harmony_pool_is_valid returns true on
such a partially allocated pool; it returns false. -/
theorem pool_is_valid_partial_claim_counterexample :
    (64 : Nat) - 16 < poolWalk zeroMem 0 0 64 ∧ (0 : Nat) < 64 / 16 ∧
    (harmony_pool_is_valid ⟨0, 64, 16, 64⟩ zeroMem).1 = false := by decide

/-- C3 amended: whenever the walk (with links read the way the code reads
them) reaches an out-of-range offset in strictly fewer than
slot_count = capacity / item_width steps, harmony_pool_is_valid returns
FALSE, not true: the loop treats early termination of the chain as a
leak, per the header documentation of the function. -/
theorem pool_is_valid_false_of_early_exit (p : HarmonyPool) (m : Mem)
    (hiw : p.item_width ≤ p.capacity) (hcw : p.capacity < usizeSize)
    (h : ∃ k, k < p.capacity / p.item_width ∧
        p.capacity - p.item_width < poolWalk m p.data k p.next_offset) :
    (harmony_pool_is_valid p m).1 = false := by
  have hs : wsub p.capacity p.item_width = p.capacity - p.item_width :=
    wsub_small _ _ hiw hcw
  have h2 : ∃ k, k < p.capacity / p.item_width ∧
      wsub p.capacity p.item_width < poolWalk m p.data k p.next_offset := by
    rw [hs]; exact h
  simpa [harmony_pool_is_valid] using
    poolCheckLoop_false m p.data p.capacity p.item_width _ _ h2

/-- C3 witness: the amended theorem applied to the concrete pool. -/
theorem pool_is_valid_false_of_early_exit_witness :
    (harmony_pool_is_valid ⟨0, 64, 16, 64⟩ zeroMem).1 = false :=
  pool_is_valid_false_of_early_exit ⟨0, 64, 16, 64⟩ zeroMem (by decide) (by decide)
    ⟨0, by decide, by decide⟩

/-- C4: the 4-slot pool after a deliberate double free of the slot at
byte offset 16: next_offset = 16 and the link stored in the slot points
back at 16 (a one-element cycle), yet harmony_pool_is_valid returns TRUE.
It follows links at byte address data + 8 * next_offset (pointer
arithmetic on a u64 pointer) rather than at data + next_offset as
harmony_pool_alloc and harmony_pool_free do, so the walk wanders into the
bytes of memC4 outside the buffer and mistakes them for a clean chain;
the claim (and the header documentation) says a double free makes the
check return false. -/
theorem pool_double_free_undetected_trace :
    c4free2.1.next_offset = 16 ∧ load64 c4free2.2 16 = 16 ∧
    (harmony_pool_is_valid c4free2.1 c4free2.2).1 = true := by decide

/-- C5 counterexample: the claim as stated quantifies over every positive
size, but at size 2 ^ 64 - 1 the 16-byte round-up of harmony_mem_align
wraps the 64-bit usize to 0, the guard 0 > 0 fails, and
harmony_arena_alloc on the fresh zero-capacity arena SUCCEEDS, returning
the base address 7 instead of the failure marker (head stays 0, so the
arena is returned unchanged). -/
theorem arena_create_wrap_counterexample :
    harmony_arena_alloc (harmony_arena_create 7 100) (2 ^ 64 - 1)
      = (some 7, harmony_arena_create 7 100) ∧ (0 : Nat) < 2 ^ 64 - 1 := by decide

/-- C5 amended: harmony_arena_create stores the backing pointer but
leaves the capacity field zero-initialized (the requested capacity is
never stored) and head at 0; hence any subsequent harmony_arena_alloc
with a positive size small enough that the 16-byte round-up does not
wrap at 2 ^ 64 (size + 15 < 2 ^ 64) fails and leaves the arena
unchanged.  For the handful of sizes at the very top of the usize range
the round-up wraps to 0 and the alloc spuriously succeeds, as the
counterexample above shows. -/
theorem arena_create_zero_capacity (base cap size : Nat) (h0 : 0 < size)
    (h1 : size + 15 < usizeSize) :
    (harmony_arena_create base cap).capacity = 0 ∧
    (harmony_arena_create base cap).head = 0 ∧
    harmony_arena_alloc (harmony_arena_create base cap) size
      = (none, harmony_arena_create base cap) := by
  refine ⟨rfl, rfl, ?_⟩
  have hz : ¬ size = 0 := by omega
  have hal : harmony_mem_align size 16 = (size + 15) / 16 * 16 := malign16 size h1
  have hq : 1 ≤ (size + 15) / 16 := (Nat.one_le_div_iff (by norm_num)).mpr (by omega)
  have h16 : 16 ≤ (size + 15) / 16 * 16 := by
    have := Nat.mul_le_mul_right 16 hq
    simpa using this
  have hlt : (size + 15) / 16 * 16 < usizeSize := by
    have := Nat.div_mul_le_self (size + 15) 16
    omega
  have hw : wadd 0 (harmony_mem_align size 16) = (size + 15) / 16 * 16 := by
    rw [hal]
    unfold wadd
    rw [Nat.zero_add]
    exact Nat.mod_eq_of_lt hlt
  have hgt : wadd (harmony_arena_create base cap).head (harmony_mem_align size 16)
      > (harmony_arena_create base cap).capacity := by
    show wadd 0 (harmony_mem_align size 16) > 0
    rw [hw]
    omega
  unfold harmony_arena_alloc
  rw [if_neg hz, if_pos hgt]

/-- C5 witness at base 7, requested capacity 100, size 5. -/
theorem arena_create_zero_capacity_witness :
    (harmony_arena_create 7 100).capacity = 0 ∧
    (harmony_arena_create 7 100).head = 0 ∧
    harmony_arena_alloc (harmony_arena_create 7 100) 5
      = (none, harmony_arena_create 7 100) :=
  arena_create_zero_capacity 7 100 5 (by decide) (by decide)

/-- C6 counterexample: the claim as stated quantifies over every size,
but in the wrap region the code contradicts it.  At the arena
(data 0, capacity 64, head 16) with size = 2 ^ 64 - 16, the exact
round-up is 2 ^ 64 - 16 (already a multiple of 16), so the claimed
failure condition head + round_up(size, 16) = 2 ^ 64 > 64 = capacity
holds and the claim demands the failure marker with head unchanged; the
code instead wraps head + aligned to 0, passes the guard, and succeeds,
returning the address data + head = 16 and setting head to 0 (not to
head + round_up). -/
theorem arena_alloc_wrap_counterexample :
    harmony_arena_alloc ⟨0, 64, 16⟩ (2 ^ 64 - 16) = (some 16, ⟨0, 64, 0⟩) ∧
    (64 : Nat) < 16 + (2 ^ 64 - 16 + 15) / 16 * 16 := by decide

/-- C6 amended: for every request whose 16-byte round-up and resulting
head stay below 2 ^ 64 (every size up to 2 ^ 64 - 16 on a realizable
arena), harmony_arena_alloc fails returning NULL and leaves the arena
(and in particular head) unchanged when size = 0 or when
head + round_up(size, 16) exceeds capacity; otherwise it returns the
address data + head of the old head and advances head by the rounded
size.  In the excluded wrap region the alignment wraps the 64-bit usize
and the code can succeed although the exact sum exceeds capacity, as the
counterexample above shows. -/
theorem arena_alloc_spec (a : HarmonyArena) (size : Nat)
    (h1 : size + 15 < usizeSize)
    (h2 : a.head + (size + 15) / 16 * 16 < usizeSize)
    (h3 : a.data + a.head < usizeSize) :
    ((size = 0 ∨ a.capacity < a.head + (size + 15) / 16 * 16) →
        harmony_arena_alloc a size = (none, a)) ∧
    (0 < size → a.head + (size + 15) / 16 * 16 ≤ a.capacity →
        harmony_arena_alloc a size
          = (some (a.data + a.head), ⟨a.data, a.capacity, a.head + (size + 15) / 16 * 16⟩)) := by
  have hal : harmony_mem_align size 16 = (size + 15) / 16 * 16 := malign16 size h1
  have hw : wadd a.head (harmony_mem_align size 16) = a.head + (size + 15) / 16 * 16 := by
    rw [hal]
    exact wadd_small _ _ h2
  constructor
  · rintro (hz | hgt)
    · simp [harmony_arena_alloc, hz]
    · by_cases hz : size = 0
      · simp [harmony_arena_alloc, hz]
      · simp [harmony_arena_alloc, hz, hw, hgt]
  · intro hpos hle
    have hz : ¬ size = 0 := by omega
    have hng : ¬ (a.head + (size + 15) / 16 * 16 > a.capacity) := by omega
    have hd : wadd a.data a.head = a.data + a.head := wadd_small _ _ h3
    simp [harmony_arena_alloc, hz, hw, hng, hd]

/-- C6 witness: allocating 10 bytes from an empty arena of capacity 64
returns the address at offset 0 and advances head to 16. -/
theorem arena_alloc_spec_witness :
    harmony_arena_alloc ⟨0, 64, 0⟩ 10 = (some 0, ⟨0, 64, 16⟩) :=
  (arena_alloc_spec ⟨0, 64, 0⟩ 10 (by decide) (by decide) (by decide)).2
    (by decide) (by decide)

/-- C7: harmony_arena_free evaluated at the failing input: arena with
base address 16, capacity 64, head 0.  harmony_arena_alloc 16 returns the
address 16 and advances head to 16; freeing that very allocation is a
no-op because the guard compares the absolute address plus the aligned
size (16 + 16 = 32) with the relative head offset (16), which never match
for a nonzero base.  The claim says head is restored to 0; it stays 16. -/
theorem arena_free_no_rollback_trace :
    harmony_arena_alloc ⟨16, 64, 0⟩ 16 = (some 16, ⟨16, 64, 16⟩) ∧
    harmony_arena_free ⟨16, 64, 16⟩ 16 16 = ⟨16, 64, 16⟩ := by decide

/-- C8: harmony_arena_realloc evaluated at the failing input: arena base
0, capacity 64, head 32, memory byte i holding i; the allocation at
offset 0 (old size 16, not the most recent) is reallocated to new size 8.
The fallback path allocates fresh space at offset 32 and then copies
old_size = 16 bytes instead of min(old_size, new_size) = 8: the byte at
offset 40 = 32 + 8, one past the claimed copy region, changes from 40 to
8 (the content of source byte 8), overrunning the fresh 8-byte
allocation. -/
theorem arena_realloc_copy_old_size_trace :
    c8result.1 = some 32 ∧ c8result.2.1.head = 48 ∧
    c8result.2.2 40 = 8 ∧ memIdent 40 = 40 := by decide

/-- C9 counterexample: arena base 0, capacity 64, head 32 (allocations at
offsets 0 and 16, so the allocation at offset 0 is NOT the most recent).
harmony_arena_realloc with new_size 0 rewinds head to 0, while
harmony_arena_free on the same state leaves head at 32: the two calls do
not have the same effect, and head is rolled back for a non-most-recent
allocation, contradicting both parts of the claim. -/
theorem arena_realloc_zero_vs_free_counterexample :
    (harmony_arena_realloc ⟨0, 64, 32⟩ zeroMem 0 16 0).1 = none ∧
    (harmony_arena_realloc ⟨0, 64, 32⟩ zeroMem 0 16 0).2.1.head = 0 ∧
    harmony_arena_free ⟨0, 64, 32⟩ 0 16 = ⟨0, 64, 32⟩ := by decide

/-- C9 amended: harmony_arena_realloc with new_size = 0 returns the
failure marker and UNCONDITIONALLY sets head to the offset of the given
allocation, whether or not it is the most recent one; it does not
replicate the guarded behavior of harmony_arena_free. -/
theorem arena_realloc_zero_unconditional (a : HarmonyArena) (m : Mem) (p os : Nat)
    (h1 : a.data ≤ p) (h2 : p < usizeSize) :
    harmony_arena_realloc a m p os 0 = (none, { a with head := p - a.data }, m) := by
  simp [harmony_arena_realloc, wsub_small p a.data h1 h2]

/-- C9 witness: rewinding to offset 16 of the arena with head 32. -/
theorem arena_realloc_zero_unconditional_witness :
    harmony_arena_realloc ⟨0, 64, 32⟩ zeroMem 16 16 0 = (none, ⟨0, 64, 16⟩, zeroMem) :=
  arena_realloc_zero_unconditional ⟨0, 64, 32⟩ zeroMem 16 16 (by decide) (by decide)

/-- C10: every arena operation preserves the invariant head <= capacity
(0 <= head holds trivially over Nat).  The hypotheses state the caller
contract: the arena is well formed (head <= capacity, the buffer fits in
the address space) and the pointer argument was obtained from this arena,
i.e. it is data + off for some offset off <= capacity. -/
theorem arena_head_invariant_preserved (a : HarmonyArena) (m : Mem)
    (off size old_size new_size : Nat)
    (hinv : a.head ≤ a.capacity) (hcapW : a.data + a.capacity < usizeSize)
    (hoff : off ≤ a.capacity) :
    (harmony_arena_alloc a size).2.head ≤ a.capacity ∧
    (harmony_arena_realloc a m (a.data + off) old_size new_size).2.1.head ≤ a.capacity ∧
    (harmony_arena_free a (a.data + off) size).head ≤ a.capacity ∧
    (harmony_arena_reset a).head ≤ a.capacity := by
  have hptrW : a.data + off < usizeSize := by omega
  have hws : wsub (a.data + off) a.data = off := wsub_add_left _ _ hptrW
  refine ⟨arena_alloc_head_le a size hinv, ?_, ?_, ?_⟩
  · by_cases hns : new_size = 0
    · simp [harmony_arena_realloc, hns, hws, hoff]
    · by_cases hg : wadd (a.data + off) (harmony_mem_align old_size 16) = a.head
      · by_cases hfit :
            wadd (wsub (a.data + off) a.data) (harmony_mem_align new_size 16) > a.capacity
        · simp [harmony_arena_realloc, hns, hg, hfit, hinv]
        · simp [harmony_arena_realloc, hns, hg, hfit]
          omega
      · rcases he : harmony_arena_alloc a new_size with ⟨r, a2⟩
        have h2 : a2.head ≤ a.capacity := by
          have h3 := arena_alloc_head_le a new_size hinv
          rw [he] at h3
          exact h3
        cases r with
        | none => simp [harmony_arena_realloc, hns, hg, he, h2]
        | some dst => simp [harmony_arena_realloc, hns, hg, he, h2]
  · by_cases hg : wadd (a.data + off) (harmony_mem_align size 16) = a.head
    · simp [harmony_arena_free, hg, hws, hoff]
    · simp [harmony_arena_free, hg, hinv]
  · simp [harmony_arena_reset]

/-- C10 witness: the invariant is preserved at a concrete arena. -/
theorem arena_head_invariant_preserved_witness :
    (harmony_arena_alloc ⟨0, 64, 16⟩ 8).2.head ≤ 64 ∧
    (harmony_arena_realloc ⟨0, 64, 16⟩ zeroMem (0 + 0) 16 8).2.1.head ≤ 64 ∧
    (harmony_arena_free ⟨0, 64, 16⟩ (0 + 0) 8).head ≤ 64 ∧
    (harmony_arena_reset ⟨0, 64, 16⟩).head ≤ 64 :=
  arena_head_invariant_preserved ⟨0, 64, 16⟩ zeroMem 0 8 16 8
    (by decide) (by decide) (by decide)
